import Mathlib

/-!
Verification of the De-Synthesize-Pro photo-development client.

The definitions below are a shallow embedding of the TypeScript sources:
`src/unnamed/part_000` (the application component, prompt builder, history
handlers and UI state machine), `src/services/geminiService.ts` (the API
response handling and error classification), and `src/types.ts` (the data
model).  Strings are transcribed verbatim from the source; machine numbers
are modelled as `Nat`/`Int`; the rational field `ℚ` stands in for the
JavaScript numeric ratio arithmetic.
-/

/-- `ImageSize` from src/types.ts. -/
inductive ImageSize
| oneK
| twoK
| fourK
deriving DecidableEq

/-- `AspectRatio` from src/types.ts: one of the five supported ratios. -/
inductive AspectRatio
| r1x1
| r3x4
| r4x3
| r9x16
| r16x9
deriving DecidableEq

/-- `FilmStock` from src/types.ts. -/
inductive FilmStock
| kodakPortra400
| kodakGold200
| kodakEktachromeE100
| kodakTriX400
| fujiVelvia50
| fujiProvia100F
| fujiPro400H
| ilfordHP5Plus
| cinestill800T
deriving DecidableEq

/-- The display label of a film stock, as written in src/types.ts. -/
def filmStockName : FilmStock → String
| .kodakPortra400 => "Kodak Portra 400"
| .kodakGold200 => "Kodak Gold 200"
| .kodakEktachromeE100 => "Kodak Ektachrome E100"
| .kodakTriX400 => "Kodak Tri-X 400 (B&W)"
| .fujiVelvia50 => "Fujifilm Velvia 50"
| .fujiProvia100F => "Fujifilm Provia 100F"
| .fujiPro400H => "Fujifilm Pro 400H"
| .ilfordHP5Plus => "Ilford HP5 Plus (B&W)"
| .cinestill800T => "Cinestill 800T"

/-- `ISOValue` from src/types.ts: 200, 400, 800 or 1600. -/
inductive ISOValue
| iso200
| iso400
| iso800
| iso1600
deriving DecidableEq

/-- The numeric value of an `ISOValue`. -/
def isoNat : ISOValue → Nat
| .iso200 => 200
| .iso400 => 400
| .iso800 => 800
| .iso1600 => 1600

/-- The skin clause chosen in `BASE_PROMPT_TEMPLATE` for intensity `< 30`
(src/unnamed/part_000 line 12). -/
def lightGrainClause : String :=
  "Apply a light photographic grain and micro-texture to the skin, effectively removing synthetic digital smoothness while keeping the character\x27s appearance clean and polished."

/-- The skin clause chosen in `BASE_PROMPT_TEMPLATE` for intensity `> 70`
(src/unnamed/part_000 line 14). -/
def highFidelityClause : String :=
  "Apply professional high-fidelity skin reconstruction. Focus on restoring intricate skin details like natural pore structure and fine organic textures. The result should feel raw and authentic, resembling an unretouched high-resolution film negative, while honoring the character\x27s original features and avoiding any exaggerated blemishes."

/-- The skin clause chosen in `BASE_PROMPT_TEMPLATE` otherwise
(src/unnamed/part_000 line 16). -/
def balancedClause : String :=
  "Restore realistic skin texture with natural variation. Preserve the character\x27s features while adding the subtle depth and organic feel of real skin, effectively bridging the gap between digital generation and authentic photography."

/-- `BASE_PROMPT_TEMPLATE` (src/unnamed/part_000 lines 9-20). -/
def basePromptTemplate (intensity : Nat) : String :=
  let skinPrompt :=
    if intensity < 30 then lightGrainClause
    else if intensity > 70 then highFidelityClause
    else balancedClause
  "A portrait with " ++ skinPrompt ++ ", while maintaining consistent lighting, props, and set design."

/-- `FILM_STOCK_CHARACTERISTICS` (src/unnamed/part_000 lines 22-32). -/
def filmStockCharacteristics : FilmStock → String
| .kodakPortra400 => "Legendary skin tones. Warm, golden hues with a natural highlight roll-off. Ideal for portraits requiring a soft, organic feel."
| .kodakGold200 => "The classic consumer aesthetic. Saturated yellows and punchy reds with a warm, nostalgic 90s snapshot vibe."
| .kodakEktachromeE100 => "Professional color reversal film. Exceptional sharpness, clean cool shadows, and neutral, realistic whites."
| .kodakTriX400 => "High-contrast monochrome. Gritty, punchy textures with deep blacks and a legendary journalistic character."
| .fujiVelvia50 => "Hyper-saturated color. Intense greens and magentas with very high contrast. A distinctive, high-drama slide film look."
| .fujiProvia100F => "Balanced professional slide film. Neutral color reproduction with incredible sharpness and fine grain structure."
| .fujiPro400H => "Pastel palette. Soft, airy tones with a signature subtle cyan/green tint in the shadows. Perfect for ethereal lighting."
| .ilfordHP5Plus => "Classic street photography film. Wide tonal range with a punchy, organic grain that feels raw and authentic."
| .cinestill800T => "Cinematic tungsten-balanced film. Unique \"red glow\" halation around bright lights with a cool, moody night-time color shift."

/-- The grain sentence of `buildFinalPrompt` (src/unnamed/part_000 line 151). -/
def grainSentence (iso : ISOValue) : String :=
  "Add a substantial amount of organic film grain, resembling a " ++ toString (isoNat iso) ++ " ISO film to the image, preserving the original aesthetic. The grain should feel raw and authentic."

/-- `buildFinalPrompt` (src/unnamed/part_000 lines 149-154): the base
sentence, the film-stock characteristics and the grain sentence joined by
single spaces.  Its inputs are precisely the skin-detail intensity, the
film stock and the ISO value read from component state. -/
def buildFinalPrompt (skinDetail : Nat) (stock : FilmStock) (iso : ISOValue) : String :=
  basePromptTemplate skinDetail ++ " " ++ filmStockCharacteristics stock ++ " " ++ grainSentence iso

/-- Whether `p` is a leading run of `s`, modelling JavaScript
`String.prototype.startsWith`. -/
def strStartsWith (s p : String) : Bool :=
  p.toList.isPrefixOf s.toList

/-- Whether `pat` occurs as a contiguous run inside `s`. -/
def listInfix : List Char → List Char → Bool
| pat, [] => pat.isEmpty
| pat, c :: t => pat.isPrefixOf (c :: t) || listInfix pat t

/-- Substring containment, modelling JavaScript `String.prototype.includes`. -/
def containsSub (s pat : String) : Bool :=
  listInfix pat.toList s.toList

/-- One part of a candidate response: an optional `inlineData` attachment
(its base64 payload) and an optional `text` field. -/
structure GenPart where
  inlineData : Option String
  text : Option String

/-- The `content` object of a candidate, holding an optional parts array. -/
structure GenContent where
  parts : Option (List GenPart)

/-- One candidate of a `generateContent` response. -/
structure Candidate where
  finishReason : Option String
  content : Option GenContent

/-- A `generateContent` response, as read by `processImage`. -/
structure GenResponse where
  candidates : Option (List Candidate)

/-- The parts array of a candidate: `candidate.content?.parts || []`
(src/services/geminiService.ts line 61). -/
def partsOf (c : Candidate) : List GenPart :=
  ((c.content.map GenContent.parts).join).getD []

/-- Thrown when the response has no candidates
(src/services/geminiService.ts line 40). -/
def msgNoCandidates : String :=
  "REJECTION: The Lab could not process this image. WHY: The source image triggered automated safety filters, which often happens with content that is interpreted as sensitive or restricted. REMEDY: Please try a different photo. Ensure the subject is clearly a standard portrait and the composition is neutral."

/-- Thrown on `finishReason === 'SAFETY'` (geminiService.ts line 46). -/
def msgSafety : String :=
  "REJECTION: Development halted due to safety guardrails. WHY: The Emulsion Engine detected features in the image that are restricted for processing. This is a common precaution for certain types of portraits. REMEDY: Try an image with more standard lighting, a clear head-and-shoulders crop, or a different character subject."

/-- Thrown on `finishReason === 'RECITATION'` (geminiService.ts line 50). -/
def msgRecitation : String :=
  "REJECTION: Style processing failed. WHY: The requested development style or the subject matter closely matches protected content or copyright-sensitive material. REMEDY: Try a different film stock or a less specific subject to proceed with development."

/-- Thrown on `finishReason === 'OTHER'` (geminiService.ts line 54). -/
def msgOther : String :=
  "REJECTION: An unexpected lab interruption occurred. WHY: The model encountered an internal error or the content was rejected for an unspecified safety reason. REMEDY: Attempt the development again with a slightly different grain intensity or a new source image."

/-- Thrown when no image part exists but the candidate carried explanatory
text (geminiService.ts line 73). -/
def msgRefusal (why : String) : String :=
  "REJECTION: The Lab encountered a problem. WHY: " ++ why ++ " REMEDY: Adjust your input image or settings to resolve the concern mentioned above."

/-- The final fallback when no image and no text was returned
(geminiService.ts line 77). -/
def msgNoTexture : String :=
  "REJECTION: The Lab was unable to generate the new texture. WHY: Although the image was accepted, the reconstruction process failed to complete safely. REMEDY: Please try a different image. Ensure the person is in a well-lit environment and the framing is a typical photographic portrait."

/-- The loop over the candidate parts (geminiService.ts lines 62-77):
return a data URL on the first part carrying `inlineData`, accumulate
non-empty `text` fields (JavaScript truthiness skips an empty string)
into the refusal explanation otherwise. -/
def findImage : List GenPart → String → Except String String
| [], acc =>
    if (acc.trim) ≠ "" then Except.error (msgRefusal (acc.trim))
    else Except.error msgNoTexture
| p :: ps, acc =>
    match p.inlineData with
    | some d => Except.ok ("data:image/png;base64," ++ d)
    | none =>
        match p.text with
        | some t => if t = "" then findImage ps acc else findImage ps (acc ++ t ++ " ")
        | none => findImage ps acc

/-- The try-block of `processImage` (geminiService.ts lines 38-77), from
the point where the API response is available: prompt-level blocking,
finish-reason screening, then the search for an image part. -/
def processImageCore (r : GenResponse) : Except String String :=
  match r.candidates with
  | none => Except.error msgNoCandidates
  | some [] => Except.error msgNoCandidates
  | some (c :: _) =>
      if c.finishReason = some "SAFETY" then Except.error msgSafety
      else if c.finishReason = some "RECITATION" then Except.error msgRecitation
      else if c.finishReason = some "OTHER" then Except.error msgOther
      else findImage (partsOf c) ""

/-- Thrown on a 403 signature (geminiService.ts line 92). -/
def msgPermissionDenied : String :=
  "PERMISSION_DENIED: gemini-3-pro-image-preview requires a PAID API key from a Google Cloud project with billing enabled. Please check your project status at ai.google.dev/gemini-api/docs/billing"

/-- Thrown on a 429 signature (geminiService.ts line 100). -/
def msgRateLimit : String :=
  "The lab is busy. WHY: Rate limit exceeded. REMEDY: Please wait 60 seconds before submitting the next negative for development."

/-- The generic fallback message (geminiService.ts line 103). -/
def msgGenericFallback : String :=
  "A technical chemical imbalance occurred in the lab. Please check your connection and try again."

/-- The catch handler of `processImage` (geminiService.ts lines 79-103):
given the caught error message (absent for non-Error throws) and its
optional numeric `status`, the message of the error rethrown to the UI. -/
def classifyCaught (message : Option String) (status : Option Int) : String :=
  let raw := message.getD ""
  if raw ≠ "" ∧ strStartsWith raw "REJECTION:" then raw
  else
    if containsSub raw "403" = true ∨ status = some 403 then msgPermissionDenied
    else if containsSub raw "Requested entity was not found." = true then "KEY_RESET_REQUIRED"
    else if containsSub raw "429" = true then msgRateLimit
    else if raw ≠ "" then raw
    else msgGenericFallback

/-- The first candidate of a response, when one exists. -/
def firstCandidate (r : GenResponse) : Option Candidate :=
  (r.candidates.getD []).head?

/-- The finish reason is none of the three screened values. -/
def goodFinish (c : Candidate) : Prop :=
  c.finishReason ≠ some "SAFETY" ∧ c.finishReason ≠ some "RECITATION" ∧
    c.finishReason ≠ some "OTHER"

/-- Some part of the candidate carries `inlineData`. -/
def hasInlinePart (c : Candidate) : Prop :=
  ∃ p ∈ partsOf c, p.inlineData.isSome = true

/-- The payload of the first part carrying `inlineData`. -/
def firstInline (ps : List GenPart) : Option String :=
  (ps.find? fun p => p.inlineData.isSome).bind GenPart.inlineData

/-- The accumulated text of a parts list, each non-empty text field
followed by one space, matching the refusal-text accumulation of the
parts loop when no part carries an image. -/
def accumText : List GenPart → String
| [] => ""
| p :: ps =>
    match p.text with
    | some t => if t = "" then accumText ps else t ++ " " ++ accumText ps
    | none => accumText ps

/-- The success condition of the claim: at least one candidate, a finish
reason other than the three screened ones, and some part with an image. -/
def okCond (r : GenResponse) : Prop :=
  ∃ c, firstCandidate r = some c ∧ goodFinish c ∧ hasInlinePart c

/-- The rejection message the claim assigns to each failure condition:
no candidates or SAFETY give the safety-filter messages, RECITATION the
recitation message, OTHER the unspecified message, and a candidate without
an image part the no-image message, carrying the accumulated text parts as
the explanation when any are present. -/
def claimedError (r : GenResponse) : String :=
  match firstCandidate r with
  | none => msgNoCandidates
  | some c =>
      if c.finishReason = some "SAFETY" then msgSafety
      else if c.finishReason = some "RECITATION" then msgRecitation
      else if c.finishReason = some "OTHER" then msgOther
      else if (accumText (partsOf c)).trim ≠ "" then
        msgRefusal ((accumText (partsOf c)).trim)
      else msgNoTexture

/-- `ProcessedImage` from src/types.ts: one history record. -/
structure ProcessedImage where
  id : String
  originalUrl : String
  processedUrl : String
  timestamp : Nat
  prompt : String
  size : ImageSize
  aspectRatio : AspectRatio
  filmStock : FilmStock
  iso : ISOValue
  skinDetail : Nat
  selected : Option Bool
deriving DecidableEq

/-- The in-memory history insertion after a successful development:
`setHistory(prev => [newEntry, ...prev])` (src/unnamed/part_000 line 246). -/
def insertHistory (e : ProcessedImage) (h : List ProcessedImage) : List ProcessedImage :=
  e :: h

/-- The in-memory history deletion:
`setHistory(prev => prev.filter(item => item.id !== id))`
(src/unnamed/part_000 line 269). -/
def deleteHistory (i : String) (h : List ProcessedImage) : List ProcessedImage :=
  h.filter fun r => r.id ≠ i

/-- Modelled from the spec: `src/services/dbService.ts` is not present in
the source tree (only its import and call sites are).  The spec describes
the store as "an append-ordered local table" of records "keyed by
identifier", "supporting insert, list-all, delete-by-id, and clear-all";
`saveHistoryItem` therefore appends the new record to the table. -/
def saveHistoryItem (table : List ProcessedImage) (e : ProcessedImage) : List ProcessedImage :=
  table ++ [e]

/-- Modelled from the spec: delete-by-id on the stored table removes the
records whose identifier equals the key (`dbService.ts` is absent). -/
def deleteHistoryItemFromDB (table : List ProcessedImage) (i : String) : List ProcessedImage :=
  table.filter fun r => r.id ≠ i

/-- Modelled from the spec: list-all returns the append-ordered table
(`dbService.ts` is absent). -/
def getHistory (table : List ProcessedImage) : List ProcessedImage :=
  table

/-- The selection toggle (src/unnamed/part_000 lines 261-264):
`prev.map(item => item.id === id ? { ...item, selected: !item.selected } : item)`.
JavaScript `!` on the optional flag treats an absent value as `false`. -/
def toggleSelection (i : String) (h : List ProcessedImage) : List ProcessedImage :=
  h.map fun r =>
    if r.id = i then { r with selected := some (!(r.selected.getD false)) } else r

/-- The table of standard ratios (src/unnamed/part_000 lines 76-82), in
source order, with their numeric values as rationals. -/
def standardRatios : List (ℚ × AspectRatio) :=
  [(1, AspectRatio.r1x1), (3/4, AspectRatio.r3x4), (4/3, AspectRatio.r4x3),
   (9/16, AspectRatio.r9x16), (16/9, AspectRatio.r16x9)]

/-- The reducer of `calculateClosestAspectRatio`: keep the current best
unless the next entry is strictly closer to the image ratio
(src/unnamed/part_000 lines 83-85). -/
def closerTo (r : ℚ) (p c : ℚ × AspectRatio) : ℚ × AspectRatio :=
  if |c.1 - r| < |p.1 - r| then c else p

/-- `calculateClosestAspectRatio` (src/unnamed/part_000 lines 74-86):
`Array.prototype.reduce` folds the tail of the table with its head as the
initial accumulator. -/
def calculateClosestAspectRatio (width height : Nat) : AspectRatio :=
  let ratio : ℚ := (width : ℚ) / (height : ℚ)
  (match standardRatios with
   | [] => (1, AspectRatio.r1x1)
   | x :: xs => xs.foldl (closerTo ratio) x).2

/-- The processing status (src/types.ts `ProcessingState.status`). -/
inductive Status
| idle
| checkingKey
| uploading
| processing
| error
deriving DecidableEq

/-- The UI state of the `App` component relevant to development runs:
the processing state, the loaded image, session/key flags, the modal, the
displayed result, the in-memory history, the stored table, and counters
for the outstanding `processImage` calls and pending key checks. -/
structure AppState where
  status : Status
  message : Option String
  originalBase64 : Option String
  sessionActive : Bool
  hasKey : Bool
  showKeyModal : Bool
  processedUrl : Option String
  history : List ProcessedImage
  table : List ProcessedImage
  outstanding : Nat
  pendingKeyChecks : Nat
  aspectRatio : AspectRatio
  filmStock : FilmStock
  iso : ISOValue

/-- The initial component state (src/unnamed/part_000 lines 105-117). -/
def initState : AppState where
  status := Status.idle
  message := none
  originalBase64 := none
  sessionActive := false
  hasKey := false
  showKeyModal := false
  processedUrl := none
  history := []
  table := []
  outstanding := 0
  pendingKeyChecks := 0
  aspectRatio := AspectRatio.r1x1
  filmStock := FilmStock.kodakPortra400
  iso := ISOValue.iso400

/-- The submit control is enabled exactly when an image is loaded and the
status is `idle`: `disabled={!originalBase64 || processingState.status !== 'idle'}`
(src/unnamed/part_000 line 514). -/
def submitEnabled (s : AppState) : Bool :=
  s.originalBase64.isSome && decide (s.status = Status.idle)

/-- The status message set while verifying the key
(src/unnamed/part_000 line 214). -/
def checkingMsg : String :=
  "Verifying Emulsion Engine..."

/-- The status message set while developing (src/unnamed/part_000 line 223). -/
def developingMsg (s : AppState) : String :=
  "Developing as " ++ filmStockName s.filmStock ++ " at ISO " ++ toString (isoNat s.iso) ++ "..."

/-- The catch handler of `startProcessing` (src/unnamed/part_000 lines
250-258): `KEY_RESET_REQUIRED` clears the session flag, opens the key
modal and returns to `idle`; any other message enters the `error` status
with that message (or the literal fallback when it is empty). -/
def handleProcessingFailure (msg : String) (s : AppState) : AppState :=
  if msg = "KEY_RESET_REQUIRED" then
    { s with sessionActive := false, showKeyModal := true,
             status := Status.idle, message := none }
  else
    { s with status := Status.error,
             message := some (if msg = "" then "Chemical imbalance detected." else msg) }

/-- The observable UI events that drive a development run. -/
inductive Ev
| upload (w h : Nat) (img : String)
| activateKey
| click
| keyChecked
| callResolved (entry : ProcessedImage)
| callFailed (msg : String)

/-- One step of the UI.  Each constructor embeds one handler of
src/unnamed/part_000: `handleFileUpload` (lines 156-175, never disabled,
resets the status to `idle`), `handleKeyActivation` (lines 198-203),
the two early phases of `startProcessing` (lines 205-221, guarded by the
submit control being enabled), the continuation after the key check
(lines 216-228, which runs whatever the status has become meanwhile and
starts the `processImage` call when a key is present), and the two
continuations of the call itself (lines 230-258). -/
inductive Step : AppState → Ev → AppState → Prop
| upload {s : AppState} (w h : Nat) (img : String) :
    0 < w → 0 < h →
    Step s (Ev.upload w h img)
      { s with originalBase64 := some img, processedUrl := none,
               status := Status.idle, message := none,
               aspectRatio := calculateClosestAspectRatio w h }
| activateKey {s : AppState} :
    Step s Ev.activateKey
      { s with sessionActive := true, hasKey := true, showKeyModal := false }
| clickNoSession {s : AppState} :
    submitEnabled s = true → s.sessionActive = false →
    Step s Ev.click { s with showKeyModal := true }
| clickSession {s : AppState} :
    submitEnabled s = true → s.sessionActive = true →
    Step s Ev.click
      { s with status := Status.checkingKey, message := some checkingMsg,
               pendingKeyChecks := s.pendingKeyChecks + 1 }
| keyCheckedNo {s : AppState} :
    0 < s.pendingKeyChecks → s.hasKey = false →
    Step s Ev.keyChecked
      { s with pendingKeyChecks := s.pendingKeyChecks - 1,
               showKeyModal := true, status := Status.idle, message := none }
| keyCheckedYes {s : AppState} :
    0 < s.pendingKeyChecks → s.hasKey = true →
    Step s Ev.keyChecked
      { s with pendingKeyChecks := s.pendingKeyChecks - 1,
               status := Status.processing, message := some (developingMsg s),
               outstanding := s.outstanding + 1 }
| callResolved {s : AppState} (entry : ProcessedImage) :
    0 < s.outstanding →
    Step s (Ev.callResolved entry)
      { s with processedUrl := some entry.processedUrl,
               table := saveHistoryItem s.table entry,
               history := insertHistory entry s.history,
               status := Status.idle, message := none,
               outstanding := s.outstanding - 1 }
| callFailed {s : AppState} (msg : String) :
    0 < s.outstanding →
    Step s (Ev.callFailed msg)
      (handleProcessingFailure msg { s with outstanding := s.outstanding - 1 })

/-- Reachability from the initial state under arbitrary UI events. -/
inductive Reachable : AppState → Prop
| init : Reachable initState
| step {s : AppState} {e : Ev} {s' : AppState} :
    Reachable s → Step s e s' → Reachable s'

/-- An event is quiescent when it is not a file upload performed while a
key check or a `processImage` call is pending. -/
def quiescentEv (s : AppState) (e : Ev) : Prop :=
  ∀ w h img, e = Ev.upload w h img → s.outstanding = 0 ∧ s.pendingKeyChecks = 0

/-- Reachability along executions in which no file upload happens while a
key check or a call is pending. -/
inductive QuiescentReachable : AppState → Prop
| init : QuiescentReachable initState
| step {s : AppState} {e : Ev} {s' : AppState} :
    QuiescentReachable s → Step s e s' → quiescentEv s e → QuiescentReachable s'

/-- Trace state: a first image has been loaded. -/
def cex1 : AppState :=
  { initState with originalBase64 := some "img", processedUrl := none,
                   status := Status.idle, message := none,
                   aspectRatio := calculateClosestAspectRatio 100 100 }

/-- Trace state: the key has been activated. -/
def cex2 : AppState :=
  { cex1 with sessionActive := true, hasKey := true, showKeyModal := false }

/-- Trace state: the submit control has been clicked once. -/
def cex3 : AppState :=
  { cex2 with status := Status.checkingKey, message := some checkingMsg,
              pendingKeyChecks := cex2.pendingKeyChecks + 1 }

/-- Trace state: the key check succeeded and the first call went out. -/
def cex4 : AppState :=
  { cex3 with pendingKeyChecks := cex3.pendingKeyChecks - 1,
              status := Status.processing, message := some (developingMsg cex3),
              outstanding := cex3.outstanding + 1 }

/-- Trace state: a second image was uploaded while the first call is
still in flight, which resets the status to `idle`. -/
def cex5 : AppState :=
  { cex4 with originalBase64 := some "img2", processedUrl := none,
              status := Status.idle, message := none,
              aspectRatio := calculateClosestAspectRatio 200 100 }

/-- Trace state: the re-enabled submit control has been clicked again. -/
def cex6 : AppState :=
  { cex5 with status := Status.checkingKey, message := some checkingMsg,
              pendingKeyChecks := cex5.pendingKeyChecks + 1 }

/-- Trace state: the second key check succeeded and a second call went
out while the first is still outstanding. -/
def cex7 : AppState :=
  { cex6 with pendingKeyChecks := cex6.pendingKeyChecks - 1,
              status := Status.processing, message := some (developingMsg cex6),
              outstanding := cex6.outstanding + 1 }

/-- A state with one `processImage` call in flight. -/
def busyState : AppState :=
  { initState with status := Status.processing, outstanding := 1 }

/-- The state after the in-flight call of `busyState` fails with the
entity-not-found signature. -/
def keyResetState : AppState :=
  handleProcessingFailure "KEY_RESET_REQUIRED"
    { busyState with outstanding := busyState.outstanding - 1 }

/-- The state after the in-flight call of `busyState` fails with a 429
rate-limit message. -/
def rateLimitedState : AppState :=
  handleProcessingFailure msgRateLimit
    { busyState with outstanding := busyState.outstanding - 1 }

/-- A sample history record. -/
def sampleRecord : ProcessedImage where
  id := "1"
  originalUrl := "o1"
  processedUrl := "p1"
  timestamp := 0
  prompt := "pr"
  size := ImageSize.oneK
  aspectRatio := AspectRatio.r1x1
  filmStock := FilmStock.kodakPortra400
  iso := ISOValue.iso400
  skinDetail := 50
  selected := some false

/-- A second sample history record with a different identifier. -/
def sampleRecord2 : ProcessedImage :=
  { sampleRecord with id := "2", selected := none }

/-- The state after the in-flight call of `busyState` resolves and
`sampleRecord` is persisted. -/
def resolvedState : AppState :=
  { busyState with processedUrl := some sampleRecord.processedUrl,
                   table := saveHistoryItem busyState.table sampleRecord,
                   history := insertHistory sampleRecord busyState.history,
                   status := Status.idle, message := none,
                   outstanding := busyState.outstanding - 1 }

/-- A sample text part. -/
def sampleTextPart : GenPart where
  inlineData := none
  text := some "here"

/-- A sample image part. -/
def sampleImagePart : GenPart where
  inlineData := some "QUJD"
  text := none

/-- A sample response: one candidate with a text part and an image part. -/
def sampleResponse : GenResponse where
  candidates := some
    [{ finishReason := some "STOP",
       content := some { parts := some [sampleTextPart, sampleImagePart] } }]

/-- Claim C3: prompt construction is deterministic — two invocations of
`buildFinalPrompt` with equal skin-detail intensity, equal film stock and
equal ISO value produce equal prompt strings; the builder reads nothing
else. -/
theorem buildFinalPrompt_deterministic (i₁ i₂ : Nat) (s₁ s₂ : FilmStock)
    (v₁ v₂ : ISOValue) (hi : i₁ = i₂) (hs : s₁ = s₂) (hv : v₁ = v₂) :
    buildFinalPrompt i₁ s₁ v₁ = buildFinalPrompt i₂ s₂ v₂ := by
  subst hi hs hv
  rfl

theorem buildFinalPrompt_deterministic_witness :
    buildFinalPrompt 50 FilmStock.kodakPortra400 ISOValue.iso400 =
      buildFinalPrompt 50 FilmStock.kodakPortra400 ISOValue.iso400 :=
  buildFinalPrompt_deterministic 50 50 _ _ _ _ rfl rfl rfl

/-- Claim C4: for every intensity in 0-100, stock, and ISO value, the final
prompt is the base sentence — whose skin clause is the light-grain text
strictly below 30, the high-fidelity text strictly above 70, and the
balanced text otherwise (30 and 70 included) — then the stock's fixed
characteristics, then a grain sentence containing the ISO number, joined
by single spaces. -/
theorem buildFinalPrompt_structure (i : Nat) (hle : i ≤ 100) (s : FilmStock)
    (v : ISOValue) :
    buildFinalPrompt i s v =
      ("A portrait with " ++
        (if i < 30 then lightGrainClause
         else if 70 < i then highFidelityClause
         else balancedClause) ++
        ", while maintaining consistent lighting, props, and set design.") ++
      " " ++ filmStockCharacteristics s ++ " " ++ grainSentence v ∧
    containsSub (grainSentence v) (toString (isoNat v)) = true := by
  constructor
  · rfl
  · cases v <;> decide

theorem buildFinalPrompt_structure_witness :
    (30 : Nat) ≤ 100 ∧
    (buildFinalPrompt 30 FilmStock.kodakGold200 ISOValue.iso800 =
      ("A portrait with " ++
        (if (30 : Nat) < 30 then lightGrainClause
         else if (70 : Nat) < 30 then highFidelityClause
         else balancedClause) ++
        ", while maintaining consistent lighting, props, and set design.") ++
      " " ++ filmStockCharacteristics FilmStock.kodakGold200 ++ " " ++
      grainSentence ISOValue.iso800 ∧
     containsSub (grainSentence ISOValue.iso800)
       (toString (isoNat ISOValue.iso800)) = true) :=
  ⟨by decide,
   buildFinalPrompt_structure 30 (by decide) FilmStock.kodakGold200 ISOValue.iso800⟩

/-- Claim C2: the catch handler of `processImage` rethrows `REJECTION:`-prefixed
errors unchanged; otherwise a message containing `403` or a status of 403
becomes the permission/billing error, else the entity-not-found signature
becomes the literal `KEY_RESET_REQUIRED`, else a message containing `429`
becomes the rate-limit message, and any other error keeps its original
message, with a generic fallback when the message is empty. -/
theorem classifyCaught_signatures (m : Option String) (st : Option Int) :
    (m.getD "" ≠ "" → strStartsWith (m.getD "") "REJECTION:" = true →
       classifyCaught m st = m.getD "") ∧
    (strStartsWith (m.getD "") "REJECTION:" = false →
       ((containsSub (m.getD "") "403" = true ∨ st = some 403 →
           classifyCaught m st = msgPermissionDenied) ∧
        (containsSub (m.getD "") "403" = false → st ≠ some 403 →
           containsSub (m.getD "") "Requested entity was not found." = true →
           classifyCaught m st = "KEY_RESET_REQUIRED") ∧
        (containsSub (m.getD "") "403" = false → st ≠ some 403 →
           containsSub (m.getD "") "Requested entity was not found." = false →
           containsSub (m.getD "") "429" = true →
           classifyCaught m st = msgRateLimit) ∧
        (containsSub (m.getD "") "403" = false → st ≠ some 403 →
           containsSub (m.getD "") "Requested entity was not found." = false →
           containsSub (m.getD "") "429" = false →
           m.getD "" ≠ "" → classifyCaught m st = m.getD "") ∧
        (containsSub (m.getD "") "403" = false → st ≠ some 403 →
           containsSub (m.getD "") "Requested entity was not found." = false →
           containsSub (m.getD "") "429" = false →
           m.getD "" = "" → classifyCaught m st = msgGenericFallback))) := by
  constructor
  · intro h1 h2
    simp only [classifyCaught]
    rw [if_pos ⟨h1, h2⟩]
  · intro hns
    have hnot : ¬(m.getD "" ≠ "" ∧ strStartsWith (m.getD "") "REJECTION:" = true) := by
      intro h
      rw [hns] at h
      exact absurd h.2 (by simp)
    simp only [classifyCaught]
    rw [if_neg hnot]
    refine ⟨?_, ?_, ?_, ?_, ?_⟩
    · intro h403
      rw [if_pos h403]
    · intro g1 g2 g3
      rw [if_neg (by simp [g1, g2]), if_pos g3]
    · intro g1 g2 g3 g4
      rw [if_neg (by simp [g1, g2]), if_neg (by simp [g3]), if_pos g4]
    · intro g1 g2 g3 g4 g5
      rw [if_neg (by simp [g1, g2]), if_neg (by simp [g3]),
        if_neg (by simp [g4]), if_pos g5]
    · intro g1 g2 g3 g4 g5
      rw [if_neg (by simp [g1, g2]), if_neg (by simp [g3]),
        if_neg (by simp [g4]), if_neg (by simp [g5])]

theorem classifyCaught_signatures_witness :
    some "timeout 429 exceeded" = some "timeout 429 exceeded" ∧
    (classifyCaught (some "timeout 429 exceeded") none = msgRateLimit) := by
  refine ⟨rfl, ?_⟩
  have h := (classifyCaught_signatures (some "timeout 429 exceeded") none).2
    (by rfl)
  exact h.2.2.1 (by decide) (by simp) (by decide) (by decide)

/-- Claim C5: inserting a record after a successful development yields a list
containing the new record with all previous records unchanged and in
their previous relative order, the stored table stays append-ordered, and
deleting by an identifier removes exactly the records whose id equals it,
leaving all others unchanged and in order, both in memory and in the
stored table. -/
theorem history_insert_delete_list (hist t : List ProcessedImage)
    (e : ProcessedImage) (i : String) :
    e ∈ insertHistory e hist ∧
    List.Sublist hist (insertHistory e hist) ∧
    e ∈ saveHistoryItem t e ∧
    List.Sublist t (saveHistoryItem t e) ∧
    getHistory (saveHistoryItem t e) = t ++ [e] ∧
    (∀ r ∈ deleteHistory i hist, r.id ≠ i) ∧
    List.Sublist (deleteHistory i hist) hist ∧
    (∀ r ∈ hist, r.id ≠ i → r ∈ deleteHistory i hist) ∧
    (∀ r ∈ deleteHistoryItemFromDB t i, r.id ≠ i) ∧
    List.Sublist (deleteHistoryItemFromDB t i) t ∧
    (∀ r ∈ t, r.id ≠ i → r ∈ deleteHistoryItemFromDB t i) := by
  refine ⟨List.mem_cons_self e hist, List.sublist_cons_self e hist,
    List.mem_append_right t (List.mem_singleton_self e),
    List.sublist_append_left t [e], rfl, ?_, List.filter_sublist hist, ?_, ?_,
    List.filter_sublist t, ?_⟩
  · intro r hr
    have := (List.mem_filter.mp hr).2
    simpa using this
  · intro r hr hne
    exact List.mem_filter.mpr ⟨hr, by simpa using hne⟩
  · intro r hr
    have := (List.mem_filter.mp hr).2
    simpa using this
  · intro r hr hne
    exact List.mem_filter.mpr ⟨hr, by simpa using hne⟩

theorem history_insert_delete_list_witness :
    sampleRecord ∈ insertHistory sampleRecord [sampleRecord2] ∧
    List.Sublist [sampleRecord2] (insertHistory sampleRecord [sampleRecord2]) ∧
    sampleRecord ∈ saveHistoryItem [sampleRecord2] sampleRecord ∧
    List.Sublist [sampleRecord2] (saveHistoryItem [sampleRecord2] sampleRecord) ∧
    getHistory (saveHistoryItem [sampleRecord2] sampleRecord) =
      [sampleRecord2] ++ [sampleRecord] ∧
    (∀ r ∈ deleteHistory "1" [sampleRecord2], r.id ≠ "1") ∧
    List.Sublist (deleteHistory "1" [sampleRecord2]) [sampleRecord2] ∧
    (∀ r ∈ [sampleRecord2], r.id ≠ "1" → r ∈ deleteHistory "1" [sampleRecord2]) ∧
    (∀ r ∈ deleteHistoryItemFromDB [sampleRecord2] "1", r.id ≠ "1") ∧
    List.Sublist (deleteHistoryItemFromDB [sampleRecord2] "1") [sampleRecord2] ∧
    (∀ r ∈ [sampleRecord2], r.id ≠ "1" →
      r ∈ deleteHistoryItemFromDB [sampleRecord2] "1") :=
  history_insert_delete_list [sampleRecord2] [sampleRecord2] sampleRecord "1"

/-- Claim C6: `toggleSelection` negates the (optional, default-false) selected
flag of exactly the records whose id matches, keeps every other field of
those records, and leaves every other record entirely unchanged, in
place. -/
theorem toggleSelection_frame (i : String) (h : List ProcessedImage) :
    (toggleSelection i h).length = h.length ∧
    ∀ k r, h.get? k = some r →
      ∃ r', (toggleSelection i h).get? k = some r' ∧
        r'.id = r.id ∧ r'.originalUrl = r.originalUrl ∧
        r'.processedUrl = r.processedUrl ∧ r'.timestamp = r.timestamp ∧
        r'.prompt = r.prompt ∧ r'.size = r.size ∧
        r'.aspectRatio = r.aspectRatio ∧ r'.filmStock = r.filmStock ∧
        r'.iso = r.iso ∧ r'.skinDetail = r.skinDetail ∧
        (r.id = i → r'.selected = some (!(r.selected.getD false))) ∧
        (r.id ≠ i → r' = r) := by
  constructor
  · exact List.length_map h _
  · intro k r hk
    rw [toggleSelection, List.get?_map, hk]
    by_cases hid : r.id = i
    · refine ⟨{ r with selected := some (!(r.selected.getD false)) }, ?_, ?_⟩
      · simp [hid]
      · refine ⟨rfl, rfl, rfl, rfl, rfl, rfl, rfl, rfl, rfl, rfl, fun _ => rfl, ?_⟩
        intro hne
        exact absurd hid hne
    · refine ⟨r, by simp [hid], rfl, rfl, rfl, rfl, rfl, rfl, rfl, rfl, rfl, rfl,
        fun hc => absurd hc hid, fun _ => rfl⟩

theorem toggleSelection_frame_witness :
    (toggleSelection "1" [sampleRecord, sampleRecord2]).length =
      [sampleRecord, sampleRecord2].length ∧
    ∀ k r, [sampleRecord, sampleRecord2].get? k = some r →
      ∃ r', (toggleSelection "1" [sampleRecord, sampleRecord2]).get? k = some r' ∧
        r'.id = r.id ∧ r'.originalUrl = r.originalUrl ∧
        r'.processedUrl = r.processedUrl ∧ r'.timestamp = r.timestamp ∧
        r'.prompt = r.prompt ∧ r'.size = r.size ∧
        r'.aspectRatio = r.aspectRatio ∧ r'.filmStock = r.filmStock ∧
        r'.iso = r.iso ∧ r'.skinDetail = r.skinDetail ∧
        (r.id = "1" → r'.selected = some (!(r.selected.getD false))) ∧
        (r.id ≠ "1" → r' = r) :=
  toggleSelection_frame "1" [sampleRecord, sampleRecord2]

/-- Folding `closerTo r` over a list returns the earliest entry whose
value minimises the distance to `r`: the accumulator changes only on a
strict improvement, so ties keep the earlier entry. -/
theorem foldl_closerTo_firstMin (r : ℚ) (l : List (ℚ × AspectRatio)) :
    ∀ b : ℚ × AspectRatio,
      ∃ l₁ l₂, b :: l = l₁ ++ (l.foldl (closerTo r) b) :: l₂ ∧
        (∀ p ∈ l₁, |(l.foldl (closerTo r) b).1 - r| < |p.1 - r|) ∧
        (∀ p ∈ b :: l, |(l.foldl (closerTo r) b).1 - r| ≤ |p.1 - r|) := by
  induction l with
  | nil =>
      intro b
      exact ⟨[], [], rfl, by simp, by simp⟩
  | cons c t ih =>
      intro b
      by_cases hc : |c.1 - r| < |b.1 - r|
      · have hfold : (c :: t).foldl (closerTo r) b = t.foldl (closerTo r) c := by
          simp [List.foldl_cons, closerTo, hc]
        obtain ⟨l₁, l₂, hdec, hstrict, hmin⟩ := ih c
        refine ⟨b :: l₁, l₂, ?_, ?_, ?_⟩
        · rw [hfold, List.cons_append, ← hdec]
        · intro p hp
          rw [hfold]
          rcases List.mem_cons.mp hp with hpb | hpl
          · subst hpb
            exact lt_of_le_of_lt (hmin c (List.mem_cons_self c t)) hc
          · exact hstrict p hpl
        · intro p hp
          rw [hfold]
          rcases List.mem_cons.mp hp with hpb | hpl
          · subst hpb
            exact le_of_lt (lt_of_le_of_lt (hmin c (List.mem_cons_self c t)) hc)
          · exact hmin p hpl
      · have hfold : (c :: t).foldl (closerTo r) b = t.foldl (closerTo r) b := by
          simp [List.foldl_cons, closerTo, hc]
        have hcb : |b.1 - r| ≤ |c.1 - r| := le_of_not_lt hc
        obtain ⟨l₁, l₂, hdec, hstrict, hmin⟩ := ih b
        cases l₁ with
        | nil =>
            simp only [List.nil_append] at hdec
            injection hdec with hb hl₂
            refine ⟨[], c :: t, ?_, by simp, ?_⟩
            · rw [List.nil_append, hfold, ← hb]
            · intro p hp
              rw [hfold, ← hb]
              rcases List.mem_cons.mp hp with h1 | h2
              · subst h1; exact le_refl _
              · rcases List.mem_cons.mp h2 with h3 | h4
                · subst h3; exact hcb
                · have hx := hmin p (List.mem_cons_of_mem b h4)
                  rw [← hb] at hx
                  exact hx
        | cons q l₁' =>
            rw [List.cons_append] at hdec
            injection hdec with hqb ht
            refine ⟨b :: c :: l₁', l₂, ?_, ?_, ?_⟩
            · rw [hfold, List.cons_append, List.cons_append, ← ht]
            · intro p hp
              rw [hfold]
              have hstrictb : |(t.foldl (closerTo r) b).1 - r| < |b.1 - r| := by
                have hq1 := hstrict q (List.mem_cons_self q l₁')
                rw [← hqb] at hq1
                exact hq1
              rcases List.mem_cons.mp hp with h1 | h2
              · rw [h1]; exact hstrictb
              · rcases List.mem_cons.mp h2 with h3 | h4
                · rw [h3]; exact lt_of_lt_of_le hstrictb hcb
                · exact hstrict p (List.mem_cons_of_mem q h4)
            · intro p hp
              rw [hfold]
              rcases List.mem_cons.mp hp with h1 | h2
              · rw [h1]; exact hmin b (List.mem_cons_self b t)
              · rcases List.mem_cons.mp h2 with h3 | h4
                · rw [h3]
                  exact le_trans (hmin b (List.mem_cons_self b t)) hcb
                · exact hmin p (List.mem_cons_of_mem b h4)

/-- Claim C10: for positive pixel dimensions, `calculateClosestAspectRatio`
returns one of the five supported ratios, namely the one whose numeric
value minimises the absolute difference to width/height, ties resolved in
favour of the earlier entry of the source-ordered table; in particular an
exactly square image yields the 1:1 ratio. -/
theorem calculateClosestAspectRatio_spec (width height : Nat)
    (hw : 0 < width) (hh : 0 < height) :
    (calculateClosestAspectRatio width height = AspectRatio.r1x1 ∨
     calculateClosestAspectRatio width height = AspectRatio.r3x4 ∨
     calculateClosestAspectRatio width height = AspectRatio.r4x3 ∨
     calculateClosestAspectRatio width height = AspectRatio.r9x16 ∨
     calculateClosestAspectRatio width height = AspectRatio.r16x9) ∧
    (∃ q l₁ l₂,
      standardRatios = l₁ ++ (q, calculateClosestAspectRatio width height) :: l₂ ∧
      (∀ p ∈ l₁, |q - (width : ℚ) / (height : ℚ)| < |p.1 - (width : ℚ) / (height : ℚ)|) ∧
      (∀ p ∈ standardRatios,
        |q - (width : ℚ) / (height : ℚ)| ≤ |p.1 - (width : ℚ) / (height : ℚ)|)) ∧
    (width = height → calculateClosestAspectRatio width height = AspectRatio.r1x1) := by
  set r : ℚ := (width : ℚ) / (height : ℚ) with hr
  obtain ⟨l₁, l₂, hdec, hstrict, hmin⟩ :=
    foldl_closerTo_firstMin r
      [(3/4, AspectRatio.r3x4), (4/3, AspectRatio.r4x3),
       (9/16, AspectRatio.r9x16), (16/9, AspectRatio.r16x9)]
      (1, AspectRatio.r1x1)
  set F := [(3/4, AspectRatio.r3x4), (4/3, AspectRatio.r4x3),
       (9/16, AspectRatio.r9x16), (16/9, AspectRatio.r16x9)].foldl
      (closerTo r) (1, AspectRatio.r1x1) with hF
  have hcalc : calculateClosestAspectRatio width height = F.2 := rfl
  have hdec' : standardRatios = l₁ ++ F :: l₂ := hdec
  have hFmem : F ∈ standardRatios := by
    rw [hdec']
    exact List.mem_append_right l₁ (List.mem_cons_self F l₂)
  have hFcases : F = ((1 : ℚ), AspectRatio.r1x1) ∨ F = (3/4, AspectRatio.r3x4) ∨
      F = (4/3, AspectRatio.r4x3) ∨ F = (9/16, AspectRatio.r9x16) ∨
      F = (16/9, AspectRatio.r16x9) := by
    simpa [standardRatios] using hFmem
  refine ⟨?_, ⟨F.1, l₁, l₂, ?_, hstrict, ?_⟩, ?_⟩
  · rw [hcalc]
    rcases hFcases with h | h | h | h | h <;> rw [h] <;> simp
  · rw [hcalc, Prod.mk.eta]
    exact hdec'
  · intro p hp
    exact hmin p (by simpa [standardRatios] using hp)
  · intro hsq
    have hne : (height : ℚ) ≠ 0 := Nat.cast_ne_zero.mpr (Nat.pos_iff_ne_zero.mp hh)
    have hr1 : r = 1 := by
      rw [hr, hsq]
      exact div_self hne
    have h0 : |F.1 - r| ≤ |(1 : ℚ) - r| :=
      hmin ((1 : ℚ), AspectRatio.r1x1) (by simp [standardRatios])
    rw [hr1] at h0
    simp only [sub_self, abs_zero] at h0
    have hF1 : F.1 = 1 := by
      have := abs_nonpos_iff.mp h0
      linarith
    rw [hcalc]
    rcases hFcases with h | h | h | h | h
    · rw [h]
    all_goals
      rw [h] at hF1
      norm_num at hF1

theorem calculateClosestAspectRatio_spec_witness :
    (0 < 2 ∧ 0 < 2) ∧
    ((calculateClosestAspectRatio 2 2 = AspectRatio.r1x1 ∨
      calculateClosestAspectRatio 2 2 = AspectRatio.r3x4 ∨
      calculateClosestAspectRatio 2 2 = AspectRatio.r4x3 ∨
      calculateClosestAspectRatio 2 2 = AspectRatio.r9x16 ∨
      calculateClosestAspectRatio 2 2 = AspectRatio.r16x9) ∧
     (∃ q l₁ l₂,
       standardRatios = l₁ ++ (q, calculateClosestAspectRatio 2 2) :: l₂ ∧
       (∀ p ∈ l₁, |q - (2 : ℚ) / (2 : ℚ)| < |p.1 - (2 : ℚ) / (2 : ℚ)|) ∧
       (∀ p ∈ standardRatios,
         |q - (2 : ℚ) / (2 : ℚ)| ≤ |p.1 - (2 : ℚ) / (2 : ℚ)|)) ∧
     ((2 : Nat) = 2 → calculateClosestAspectRatio 2 2 = AspectRatio.r1x1)) :=
  ⟨⟨by decide, by decide⟩, by
    have h := calculateClosestAspectRatio_spec 2 2 (by decide) (by decide)
    simpa using h⟩

/-- Claim C7, amended: the submit control is disabled whenever the processing
status is not `idle`; and along any execution in which no file upload is
performed while a key check or a `processImage` call is pending, at most
one `processImage` call is outstanding at any time.  (The unrestricted UI
allows a file upload during a pending request, which resets the status to
`idle` and re-enables the submit control, so a second call can then be
started; see the counterexample.) -/
theorem noDoubleSubmit_amended :
    (∀ s : AppState, s.status ≠ Status.idle → submitEnabled s = false) ∧
    (∀ s : AppState, QuiescentReachable s → s.outstanding ≤ 1) := by
  constructor
  · intro s hs
    simp [submitEnabled, hs]
  · have inv : ∀ s : AppState, QuiescentReachable s →
        s.outstanding + s.pendingKeyChecks ≤ 1 ∧
        (1 ≤ s.outstanding + s.pendingKeyChecks → s.status ≠ Status.idle) := by
      intro s hs
      induction hs with
      | init => exact ⟨by decide, by intro h; exact absurd h (by decide)⟩
      | @step s e s' _ hstep hq ih =>
          obtain ⟨ihle, ihst⟩ := ih
          cases hstep with
          | upload w h img hw hh =>
              obtain ⟨h1, h2⟩ := hq w h img rfl
              refine ⟨by simp [h1, h2], ?_⟩
              intro hge
              simp [h1, h2] at hge
          | activateKey =>
              exact ⟨ihle, ihst⟩
          | clickNoSession hen hsess =>
              exact ⟨ihle, ihst⟩
          | clickSession hen hsess =>
              have hidle : s.status = Status.idle := by
                simp [submitEnabled] at hen
                exact hen.2
              have hz : s.outstanding + s.pendingKeyChecks = 0 := by
                by_contra hnz
                exact ihst (Nat.one_le_iff_ne_zero.mpr hnz) hidle
              have ho : s.outstanding = 0 := by omega
              have hp : s.pendingKeyChecks = 0 := by omega
              constructor
              · simp [ho, hp]
              · intro _
                simp
          | keyCheckedNo hpend hkey =>
              constructor
              · simp only []
                omega
              · intro hge
                simp only [] at hge
                omega
          | keyCheckedYes hpend hkey =>
              constructor
              · simp only []
                omega
              · intro _
                simp
          | callResolved entry hout =>
              constructor
              · simp only []
                omega
              · intro hge
                simp only [] at hge
                omega
          | callFailed msg hout =>
              have hfields :
                  (handleProcessingFailure msg
                    { s with outstanding := s.outstanding - 1 }).outstanding =
                      s.outstanding - 1 ∧
                  (handleProcessingFailure msg
                    { s with outstanding := s.outstanding - 1 }).pendingKeyChecks =
                      s.pendingKeyChecks := by
                unfold handleProcessingFailure
                split <;> exact ⟨rfl, rfl⟩
              obtain ⟨hf1, hf2⟩ := hfields
              constructor
              · rw [hf1, hf2]
                omega
              · intro hge
                rw [hf1, hf2] at hge
                omega
    intro s hs
    have h := (inv s hs).1
    omega

/-- Claim C7, counterexample: the upload control stays enabled while a call is
in flight and resets the status to `idle`, so the state `cex7`, in which
two `processImage` calls are outstanding at once, is reachable — the
claim that at most one call is ever outstanding fails on the code. -/
theorem noDoubleSubmit_counterexample :
    Reachable cex7 ∧ ¬(cex7.outstanding ≤ 1) := by
  constructor
  · have h1 : Step initState (Ev.upload 100 100 "img") cex1 :=
      Step.upload 100 100 "img" (by decide) (by decide)
    have h2 : Step cex1 Ev.activateKey cex2 := Step.activateKey
    have h3 : Step cex2 Ev.click cex3 := Step.clickSession (by decide) (by decide)
    have h4 : Step cex3 Ev.keyChecked cex4 := Step.keyCheckedYes (by decide) (by decide)
    have h5 : Step cex4 (Ev.upload 200 100 "img2") cex5 :=
      Step.upload 200 100 "img2" (by decide) (by decide)
    have h6 : Step cex5 Ev.click cex6 := Step.clickSession (by decide) (by decide)
    have h7 : Step cex6 Ev.keyChecked cex7 := Step.keyCheckedYes (by decide) (by decide)
    exact Reachable.step (Reachable.step (Reachable.step (Reachable.step
      (Reachable.step (Reachable.step (Reachable.step Reachable.init h1) h2) h3)
        h4) h5) h6) h7
  · decide

theorem noDoubleSubmit_amended_witness :
    submitEnabled busyState = false ∧ initState.outstanding ≤ 1 :=
  ⟨noDoubleSubmit_amended.1 busyState (by decide),
   noDoubleSubmit_amended.2 initState QuiescentReachable.init⟩

/-- Claim C8: when the in-flight call fails with `KEY_RESET_REQUIRED`, the run
clears the session flag, opens the key-selection modal and returns the
status to `idle`; for every other (necessarily non-empty) message it sets
status `error` with that message; in both cases the outstanding count
only decreases and no new key check is started — no retry.  The last
conjunct records that the catch handler of `processImage` never rethrows
an empty message, so the non-empty hypothesis covers every failure
`processImage` can deliver. -/
theorem startProcessing_failure_handling (s s' : AppState) (msg : String)
    (hstep : Step s (Ev.callFailed msg) s') :
    (msg = "KEY_RESET_REQUIRED" →
       s'.sessionActive = false ∧ s'.showKeyModal = true ∧
       s'.status = Status.idle ∧ s'.message = none) ∧
    (msg ≠ "KEY_RESET_REQUIRED" → msg ≠ "" →
       s'.status = Status.error ∧ s'.message = some msg) ∧
    s'.outstanding = s.outstanding - 1 ∧
    s'.pendingKeyChecks = s.pendingKeyChecks ∧
    (∀ m st, classifyCaught m st ≠ "") := by
  cases hstep with
  | callFailed _ hout =>
      refine ⟨?_, ?_, ?_, ?_, ?_⟩
      · intro hk
        simp [handleProcessingFailure, hk]
      · intro hk hne
        simp [handleProcessingFailure, hk, hne]
      · unfold handleProcessingFailure
        split <;> rfl
      · unfold handleProcessingFailure
        split <;> rfl
      · intro m st
        unfold classifyCaught
        show (if (m.getD "") ≠ "" ∧ strStartsWith (m.getD "") "REJECTION:" = true
            then m.getD ""
            else
              if containsSub (m.getD "") "403" = true ∨ st = some 403 then msgPermissionDenied
              else
                if containsSub (m.getD "") "Requested entity was not found." = true
                then "KEY_RESET_REQUIRED"
                else if containsSub (m.getD "") "429" = true then msgRateLimit
                else if (m.getD "") ≠ "" then m.getD "" else msgGenericFallback) ≠ ""
        split
        · next hcond => exact hcond.1
        · split
          · decide
          · split
            · decide
            · split
              · decide
              · split
                · next hne => exact hne
                · decide

theorem startProcessing_failure_handling_witness :
    ("KEY_RESET_REQUIRED" = "KEY_RESET_REQUIRED" →
       keyResetState.sessionActive = false ∧ keyResetState.showKeyModal = true ∧
       keyResetState.status = Status.idle ∧ keyResetState.message = none) ∧
    ("KEY_RESET_REQUIRED" ≠ "KEY_RESET_REQUIRED" → "KEY_RESET_REQUIRED" ≠ "" →
       keyResetState.status = Status.error ∧
       keyResetState.message = some "KEY_RESET_REQUIRED") ∧
    keyResetState.outstanding = busyState.outstanding - 1 ∧
    keyResetState.pendingKeyChecks = busyState.pendingKeyChecks ∧
    (∀ m st, classifyCaught m st ≠ "") :=
  startProcessing_failure_handling busyState keyResetState "KEY_RESET_REQUIRED"
    (Step.callFailed "KEY_RESET_REQUIRED" (by decide))

/-- Claim C9: a run in which the call fails leaves the in-memory history, the
stored table and the processed-image display exactly as they were; in
fact no event other than a successful resolution changes the history or
the table, and only a successful resolution — which requires an
outstanding call — prepends the new record to the history, appends it to
the stored table and publishes its processed image. -/
theorem startProcessing_atomicity (s : AppState) (e : Ev) (s' : AppState)
    (hstep : Step s e s') :
    ((∀ entry, e ≠ Ev.callResolved entry) →
       s'.history = s.history ∧ s'.table = s.table) ∧
    (∀ msg, e = Ev.callFailed msg →
       s'.history = s.history ∧ s'.table = s.table ∧
       s'.processedUrl = s.processedUrl) ∧
    (∀ entry, e = Ev.callResolved entry →
       s'.history = insertHistory entry s.history ∧
       s'.table = saveHistoryItem s.table entry ∧
       s'.processedUrl = some entry.processedUrl ∧ 0 < s.outstanding) := by
  cases hstep with
  | upload w h img hw hh =>
      exact ⟨fun _ => ⟨rfl, rfl⟩, fun msg hmsg => by simp at hmsg,
        fun entry hent => by simp at hent⟩
  | activateKey =>
      exact ⟨fun _ => ⟨rfl, rfl⟩, fun msg hmsg => by simp at hmsg,
        fun entry hent => by simp at hent⟩
  | clickNoSession hen hsess =>
      exact ⟨fun _ => ⟨rfl, rfl⟩, fun msg hmsg => by simp at hmsg,
        fun entry hent => by simp at hent⟩
  | clickSession hen hsess =>
      exact ⟨fun _ => ⟨rfl, rfl⟩, fun msg hmsg => by simp at hmsg,
        fun entry hent => by simp at hent⟩
  | keyCheckedNo hpend hkey =>
      exact ⟨fun _ => ⟨rfl, rfl⟩, fun msg hmsg => by simp at hmsg,
        fun entry hent => by simp at hent⟩
  | keyCheckedYes hpend hkey =>
      exact ⟨fun _ => ⟨rfl, rfl⟩, fun msg hmsg => by simp at hmsg,
        fun entry hent => by simp at hent⟩
  | callResolved entry hout =>
      refine ⟨?_, fun msg hmsg => by simp at hmsg, ?_⟩
      · intro hne
        exact absurd rfl (hne entry)
      · intro entry2 hent
        injection hent with he
        subst he
        exact ⟨rfl, rfl, rfl, hout⟩
  | callFailed msg hout =>
      refine ⟨?_, ?_, fun entry hent => by simp at hent⟩
      · intro _
        unfold handleProcessingFailure
        split <;> exact ⟨rfl, rfl⟩
      · intro msg2 hmsg
        unfold handleProcessingFailure
        split <;> exact ⟨rfl, rfl, rfl⟩

theorem startProcessing_atomicity_witness :
    ((∀ entry, Ev.callFailed msgRateLimit ≠ Ev.callResolved entry) →
       rateLimitedState.history = busyState.history ∧
       rateLimitedState.table = busyState.table) ∧
    (∀ msg, Ev.callFailed msgRateLimit = Ev.callFailed msg →
       rateLimitedState.history = busyState.history ∧
       rateLimitedState.table = busyState.table ∧
       rateLimitedState.processedUrl = busyState.processedUrl) ∧
    (∀ entry, Ev.callFailed msgRateLimit = Ev.callResolved entry →
       rateLimitedState.history = insertHistory entry busyState.history ∧
       rateLimitedState.table = saveHistoryItem busyState.table entry ∧
       rateLimitedState.processedUrl = some entry.processedUrl ∧
       0 < busyState.outstanding) :=
  startProcessing_atomicity busyState (Ev.callFailed msgRateLimit) rateLimitedState
    (Step.callFailed msgRateLimit (by decide))

/-- When the first part carrying `inlineData` holds payload `d`, the
parts loop returns the data URL built from `d`, for any accumulator. -/
theorem findImage_firstInline (ps : List GenPart) (d : String)
    (hfi : firstInline ps = some d) :
    ∀ acc, findImage ps acc = Except.ok ("data:image/png;base64," ++ d) := by
  induction ps with
  | nil => simp [firstInline] at hfi
  | cons p ps ih =>
      intro acc
      cases hp : p.inlineData with
      | some d0 =>
          have hfind : (p :: ps).find? (fun q => q.inlineData.isSome) = some p :=
            List.find?_cons_of_pos _ (by simp [hp])
          rw [firstInline, hfind] at hfi
          simp [hp] at hfi
          subst hfi
          simp [findImage, hp]
      | none =>
          have hfind : (p :: ps).find? (fun q => q.inlineData.isSome) =
              ps.find? (fun q => q.inlineData.isSome) :=
            List.find?_cons_of_neg _ (by simp [hp])
          rw [firstInline, hfind] at hfi
          have ih2 := ih hfi
          cases ht : p.text with
          | some t =>
              by_cases hte : t = ""
              · simp [findImage, hp, ht, hte, ih2]
              · simp [findImage, hp, ht, hte, ih2]
          | none => simp [findImage, hp, ht, ih2]

/-- When no part carries `inlineData`, the parts loop falls through to
the refusal message built from the accumulated texts, or to the final
fallback when the accumulated text trims to nothing. -/
theorem findImage_no_inline (ps : List GenPart)
    (hno : ∀ p ∈ ps, p.inlineData = none) :
    ∀ acc, findImage ps acc =
      if (acc ++ accumText ps).trim ≠ "" then
        Except.error (msgRefusal ((acc ++ accumText ps).trim))
      else Except.error msgNoTexture := by
  induction ps with
  | nil =>
      intro acc
      simp [findImage, accumText, String.append_empty]
  | cons p ps ih =>
      intro acc
      have hp : p.inlineData = none := hno p (List.mem_cons_self p ps)
      have hno2 : ∀ q ∈ ps, q.inlineData = none :=
        fun q hq => hno q (List.mem_cons_of_mem p hq)
      cases ht : p.text with
      | some t =>
          by_cases hte : t = ""
          · rw [findImage]
            simp only [hp, ht, hte, if_pos rfl]
            rw [ih hno2 acc]
            simp [accumText, ht, hte]
          · rw [findImage]
            simp only [hp, ht, if_neg hte]
            rw [ih hno2 (acc ++ t ++ " ")]
            have hassoc : acc ++ t ++ " " ++ accumText ps =
                acc ++ (t ++ " " ++ accumText ps) := by
              rw [String.append_assoc, String.append_assoc, String.append_assoc]
            rw [hassoc]
            simp [accumText, ht, hte, String.append_assoc]
      | none =>
          rw [findImage]
          simp only [hp, ht]
          rw [ih hno2 acc]
          simp [accumText, ht]

/-- Some part carries `inlineData` exactly when the first inline payload
exists. -/
theorem firstInline_isSome (ps : List GenPart) :
    (∃ p ∈ ps, p.inlineData.isSome = true) ↔ ∃ d, firstInline ps = some d := by
  induction ps with
  | nil => simp [firstInline]
  | cons p ps ih =>
      cases hp : p.inlineData with
      | some d0 =>
          have hfind : (p :: ps).find? (fun q => q.inlineData.isSome) = some p :=
            List.find?_cons_of_pos _ (by simp [hp])
          constructor
          · intro _
            exact ⟨d0, by simp [firstInline, hfind, hp]⟩
          · intro _
            exact ⟨p, List.mem_cons_self p ps, by simp [hp]⟩
      | none =>
          have hfind : (p :: ps).find? (fun q => q.inlineData.isSome) =
              ps.find? (fun q => q.inlineData.isSome) :=
            List.find?_cons_of_neg _ (by simp [hp])
          have hfi : firstInline (p :: ps) = firstInline ps := by
            rw [firstInline, hfind, firstInline]
          rw [hfi, ← ih]
          constructor
          · intro ⟨q, hq, hqs⟩
            rcases List.mem_cons.mp hq with h1 | h2
            · rw [h1, hp] at hqs
              simp at hqs
            · exact ⟨q, h2, hqs⟩
          · intro ⟨q, hq, hqs⟩
            exact ⟨q, List.mem_cons_of_mem p hq, hqs⟩

/-- Claim C1: `processImage` resolves with a data URL built from the first
inline-data part exactly when the response has at least one candidate,
the first candidate's finish reason is none of SAFETY, RECITATION and
OTHER, and some part carries inline data; otherwise it throws the
rejection whose category the claim assigns to the failing condition —
the safety-filter messages for a missing candidate or SAFETY, the
recitation message, the unspecified message, and the no-image messages,
carrying the accumulated text parts as the explanation when any are
present. -/
theorem processImage_classification (r : GenResponse) :
    ((∃ s, processImageCore r = Except.ok s) ↔ okCond r) ∧
    (∀ s, processImageCore r = Except.ok s →
      ∃ c d, firstCandidate r = some c ∧ firstInline (partsOf c) = some d ∧
        s = "data:image/png;base64," ++ d) ∧
    (¬ okCond r → processImageCore r = Except.error (claimedError r)) := by
  cases hr : r.candidates with
  | none =>
      have hfc : firstCandidate r = none := by simp [firstCandidate, hr]
      have hcore : processImageCore r = Except.error msgNoCandidates := by
        simp [processImageCore, hr]
      have hok : ¬ okCond r := by
        rintro ⟨c, hc, -, -⟩
        rw [hfc] at hc
        cases hc
      refine ⟨⟨fun ⟨s, hs⟩ => ?_, fun hx => absurd hx hok⟩, fun s hs => ?_, fun _ => ?_⟩
      · rw [hcore] at hs
        cases hs
      · rw [hcore] at hs
        cases hs
      · rw [hcore]
        simp [claimedError, hfc]
  | some cs =>
      cases cs with
      | nil =>
          have hfc : firstCandidate r = none := by simp [firstCandidate, hr]
          have hcore : processImageCore r = Except.error msgNoCandidates := by
            simp [processImageCore, hr]
          have hok : ¬ okCond r := by
            rintro ⟨c, hc, -, -⟩
            rw [hfc] at hc
            cases hc
          refine ⟨⟨fun ⟨s, hs⟩ => ?_, fun hx => absurd hx hok⟩, fun s hs => ?_,
            fun _ => ?_⟩
          · rw [hcore] at hs
            cases hs
          · rw [hcore] at hs
            cases hs
          · rw [hcore]
            simp [claimedError, hfc]
      | cons c cs2 =>
          have hfc : firstCandidate r = some c := by simp [firstCandidate, hr]
          by_cases h1 : c.finishReason = some "SAFETY"
          · have hcore : processImageCore r = Except.error msgSafety := by
              simp [processImageCore, hr, h1]
            have hok : ¬ okCond r := by
              rintro ⟨c2, hc2, hg, -⟩
              rw [hfc] at hc2
              injection hc2 with he
              subst he
              exact hg.1 h1
            refine ⟨⟨fun ⟨s, hs⟩ => ?_, fun hx => absurd hx hok⟩, fun s hs => ?_,
              fun _ => ?_⟩
            · rw [hcore] at hs
              cases hs
            · rw [hcore] at hs
              cases hs
            · rw [hcore]
              simp [claimedError, hfc, h1]
          by_cases h2 : c.finishReason = some "RECITATION"
          · have hcore : processImageCore r = Except.error msgRecitation := by
              simp [processImageCore, hr, h1, h2]
            have hok : ¬ okCond r := by
              rintro ⟨c2, hc2, hg, -⟩
              rw [hfc] at hc2
              injection hc2 with he
              subst he
              exact hg.2.1 h2
            refine ⟨⟨fun ⟨s, hs⟩ => ?_, fun hx => absurd hx hok⟩, fun s hs => ?_,
              fun _ => ?_⟩
            · rw [hcore] at hs
              cases hs
            · rw [hcore] at hs
              cases hs
            · rw [hcore]
              simp [claimedError, hfc, h1, h2]
          by_cases h3 : c.finishReason = some "OTHER"
          · have hcore : processImageCore r = Except.error msgOther := by
              simp [processImageCore, hr, h1, h2, h3]
            have hok : ¬ okCond r := by
              rintro ⟨c2, hc2, hg, -⟩
              rw [hfc] at hc2
              injection hc2 with he
              subst he
              exact hg.2.2 h3
            refine ⟨⟨fun ⟨s, hs⟩ => ?_, fun hx => absurd hx hok⟩, fun s hs => ?_,
              fun _ => ?_⟩
            · rw [hcore] at hs
              cases hs
            · rw [hcore] at hs
              cases hs
            · rw [hcore]
              simp [claimedError, hfc, h1, h2, h3]
          have hcore : processImageCore r = findImage (partsOf c) "" := by
            simp [processImageCore, hr, h1, h2, h3]
          by_cases hin : ∃ p ∈ partsOf c, p.inlineData.isSome = true
          · obtain ⟨d, hd⟩ := (firstInline_isSome (partsOf c)).mp hin
            have hfind := findImage_firstInline (partsOf c) d hd ""
            have hokc : okCond r := ⟨c, hfc, ⟨h1, h2, h3⟩, hin⟩
            refine ⟨⟨fun _ => hokc, fun _ => ?_⟩, fun s hs => ?_,
              fun hno => absurd hokc hno⟩
            · exact ⟨"data:image/png;base64," ++ d, by rw [hcore, hfind]⟩
            · rw [hcore, hfind] at hs
              injection hs with he
              exact ⟨c, d, hfc, hd, he.symm⟩
          · have hnone : ∀ p ∈ partsOf c, p.inlineData = none := by
              intro p hp
              cases hpd : p.inlineData with
              | none => rfl
              | some d0 => exact absurd ⟨p, hp, by simp [hpd]⟩ hin
            have hfall := findImage_no_inline (partsOf c) hnone ""
            rw [String.empty_append] at hfall
            have hok : ¬ okCond r := by
              rintro ⟨c2, hc2, -, hip⟩
              rw [hfc] at hc2
              injection hc2 with he
              subst he
              exact hin hip
            refine ⟨⟨fun ⟨s, hs⟩ => ?_, fun hx => absurd hx hok⟩, fun s hs => ?_,
              fun _ => ?_⟩
            · rw [hcore, hfall] at hs
              split at hs <;> cases hs
            · rw [hcore, hfall] at hs
              split at hs <;> cases hs
            · rw [hcore, hfall]
              by_cases htr : (accumText (partsOf c)).trim ≠ ""
              · simp [claimedError, hfc, h1, h2, h3, htr]
              · simp [claimedError, hfc, h1, h2, h3, htr]

theorem processImage_classification_witness :
    processImageCore sampleResponse = Except.ok "data:image/png;base64,QUJD" ∧
    ((∃ s, processImageCore sampleResponse = Except.ok s) ↔ okCond sampleResponse) ∧
    (¬ okCond sampleResponse →
      processImageCore sampleResponse = Except.error (claimedError sampleResponse)) :=
  ⟨by rfl, (processImage_classification sampleResponse).1,
    (processImage_classification sampleResponse).2.2⟩
